import Mathlib

/-!
# Shallow embedding of the LMS layer of `hbs-lms-rust`

This file embeds the LMS data model and operations of the repository
(`src/lms/definitions.rs`, `src/lms/helper.rs`) as executable Lean
definitions, and proves or refutes the specification claims about them.

Bytes are modelled as `Nat` values; byte strings as `List Nat`.
A Rust function that can panic is modelled as returning `Option`:
`none` marks a panic (out-of-bounds indexing, `unwrap`/`expect` failure,
or an explicit `panic`), and the `some` payload is the ordinary result.
-/

/-- `u32str` from `src/util/ustr.rs` (big-endian 4-byte encoding of a `u32`;
the `as u32` cast in the callers truncates, which the `% 256` realises). -/
def u32str (x : Nat) : List Nat :=
  [x / 2 ^ 24 % 256, x / 2 ^ 16 % 256, x / 2 ^ 8 % 256, x % 256]

/-- `str32u` from `src/util/ustr.rs` (big-endian 4-byte decoding).
Only ever applied to 4-byte slices in the source. -/
def str32u (l : List Nat) : Nat :=
  match l with
  | [a, b, c, d] => ((a * 256 + b) * 256 + c) * 256 + d
  | _ => 0

theorem u32str_length (x : Nat) : (u32str x).length = 4 := rfl

theorem str32u_u32str (x : Nat) (hx : x < 2 ^ 32) : str32u (u32str x) = x := by
  simp only [u32str, str32u]
  omega

/-- `LmsAlgorithmType` (`src/lms/definitions.rs`). -/
inductive LmsAlgorithmType where
  | LmsReserved
  | LmsSha256M32H5
  | LmsSha256M32H10
  | LmsSha256M32H15
  | LmsSha256M32H20
  | LmsSha256M32H25
deriving DecidableEq

/-- The discriminant values of `LmsAlgorithmType` (`self as u32` in Rust). -/
def LmsAlgorithmType.toU32 : LmsAlgorithmType → Nat
  | .LmsReserved => 0
  | .LmsSha256M32H5 => 5
  | .LmsSha256M32H10 => 6
  | .LmsSha256M32H15 => 7
  | .LmsSha256M32H20 => 8
  | .LmsSha256M32H25 => 9

/-- `LmsAlgorithmType::from_u32` (`src/lms/definitions.rs` lines 29-39).
Note that the reserved typecode 0 is accepted here. -/
def LmsAlgorithmType.from_u32 (x : Nat) : Option LmsAlgorithmType :=
  match x with
  | 0 => some .LmsReserved
  | 5 => some .LmsSha256M32H5
  | 6 => some .LmsSha256M32H10
  | 7 => some .LmsSha256M32H15
  | 8 => some .LmsSha256M32H20
  | 9 => some .LmsSha256M32H25
  | _ => none

/-- `LmsAlgorithmParameter` (`src/lms/definitions.rs`). -/
structure LmsAlgorithmParameter where
  h : Nat
  m : Nat
  typ : LmsAlgorithmType
deriving DecidableEq

/-- `LmsAlgorithmParameter::get` (`src/lms/definitions.rs` lines 49-68).
On `LmsReserved` the source executes `panic!("Reserved parameter.")`,
modelled as `none`. -/
def LmsAlgorithmType.get_parameter : LmsAlgorithmType → Option LmsAlgorithmParameter
  | .LmsReserved => none
  | .LmsSha256M32H5 => some ⟨5, 32, .LmsSha256M32H5⟩
  | .LmsSha256M32H10 => some ⟨10, 32, .LmsSha256M32H10⟩
  | .LmsSha256M32H15 => some ⟨15, 32, .LmsSha256M32H15⟩
  | .LmsSha256M32H20 => some ⟨20, 32, .LmsSha256M32H20⟩
  | .LmsSha256M32H25 => some ⟨25, 32, .LmsSha256M32H25⟩

/-- `LmsAlgorithmParameter::number_of_lm_ots_keys` (`2usize.pow(h)`). -/
def LmsAlgorithmParameter.number_of_lm_ots_keys (p : LmsAlgorithmParameter) : Nat :=
  2 ^ p.h

/-- Modelled from the spec: `LmotsAlgorithmType` lives in the `lm_ots` module,
which is not part of the provided sources.  The spec fixes the typecodes
`LMOTS_SHA256_N32_W{1,2,4,8} = 1..4`. -/
inductive LmotsAlgorithmType where
  | LmotsSha256N32W1
  | LmotsSha256N32W2
  | LmotsSha256N32W4
  | LmotsSha256N32W8
deriving DecidableEq

/-- Modelled from the spec: the discriminant values 1..4 of the LM-OTS
typecodes. -/
def LmotsAlgorithmType.toU32 : LmotsAlgorithmType → Nat
  | .LmotsSha256N32W1 => 1
  | .LmotsSha256N32W2 => 2
  | .LmotsSha256N32W4 => 3
  | .LmotsSha256N32W8 => 4

/-- Modelled from the spec: `LmotsAlgorithmType::from_u32` is in the missing
`lm_ots` module; per the spec, "Unknown typecodes MUST be rejected", the
published set being 1..4. -/
def LmotsAlgorithmType.from_u32 (x : Nat) : Option LmotsAlgorithmType :=
  match x with
  | 1 => some .LmotsSha256N32W1
  | 2 => some .LmotsSha256N32W2
  | 3 => some .LmotsSha256N32W4
  | 4 => some .LmotsSha256N32W8
  | _ => none

/-- Modelled from the spec: the LM-OTS parameter record `(n = 32, w, p, ls)`
with `p` per the scheme's published constants
`(w=1)→p=265`, `(w=2)→p=133`, `(w=4)→p=67`, `(w=8)→p=34`. -/
structure LmotsParameter where
  n : Nat
  p : Nat
  typ : LmotsAlgorithmType
deriving DecidableEq

/-- Modelled from the spec: parameter resolution for the four published
LM-OTS typecodes (the `lm_ots` module is not in the provided sources). -/
def LmotsAlgorithmType.get_parameter : LmotsAlgorithmType → LmotsParameter
  | .LmotsSha256N32W1 => ⟨32, 265, .LmotsSha256N32W1⟩
  | .LmotsSha256N32W2 => ⟨32, 133, .LmotsSha256N32W2⟩
  | .LmotsSha256N32W4 => ⟨32, 67, .LmotsSha256N32W4⟩
  | .LmotsSha256N32W8 => ⟨32, 34, .LmotsSha256N32W8⟩

/-- Modelled from the spec: `LmotsPrivateKey` (in the missing `lm_ots`
module) is `(I, q, parameter, x[0..p-1])`; the constructor call
`LmotsPrivateKey::new(initial_buf, u32str(q), lm_ots_parameter, current_key)`
in `LmsPrivateKey::from_file` shows the `q` field is stored as 4 bytes. -/
structure LmotsPrivateKey where
  I : List Nat
  q : List Nat
  parameter : LmotsParameter
  x : List (List Nat)
deriving DecidableEq

/-- Modelled from the spec: `LmotsPrivateKey::get_flat_key` (missing
`lm_ots` module) flattens the `p` chain seeds of `n` bytes each; this is
consistent with `LmsPrivateKey::from_file`, which reads back exactly
`p * n` bytes per leaf key. -/
def LmotsPrivateKey.get_flat_key (k : LmotsPrivateKey) : List Nat :=
  k.x.flatten

/-- `LmsPrivateKey` (`src/lms/definitions.rs` lines 92-98). -/
structure LmsPrivateKey where
  lms_type : LmsAlgorithmType
  lm_ots_type : LmotsAlgorithmType
  key : List LmotsPrivateKey
  I : List Nat
  q : Nat
deriving DecidableEq

/-- `LmsPrivateKey::new` (`src/lms/definitions.rs` lines 102-115). -/
def LmsPrivateKey.new (lms_type : LmsAlgorithmType) (lmots_type : LmotsAlgorithmType)
    (key : List LmotsPrivateKey) (I : List Nat) : LmsPrivateKey :=
  { lms_type := lms_type, lm_ots_type := lmots_type, key := key, I := I, q := 0 }

/-- `LmsPrivateKey::use_lmots_private_key` (`src/lms/definitions.rs` lines
117-123).  The source checks `self.q as usize > self.key.len()`, then
increments `q` and indexes `self.key[self.q - 1]`; when `q = key.len()` the
guard does not fire and the indexing panics (`none`).  The successful
result is the pair (borrowed leaf key, updated private key). -/
def LmsPrivateKey.use_lmots_private_key (k : LmsPrivateKey) :
    Option (Except String (LmotsPrivateKey × LmsPrivateKey)) :=
  if k.q > k.key.length then
    some (Except.error "All private keys already used.")
  else
    let k2 : LmsPrivateKey := { k with q := k.q + 1 }
    match k.key.get? (k.q + 1 - 1) with
    | some leaf => some (Except.ok (leaf, k2))
    | none => none

/-- `LmsPrivateKey::to_binary_representation` (`src/lms/definitions.rs`
lines 125-143): typecodes, `I`, `q`, then the flattened leaf keys
(`insert` from `src/util/helper.rs` is byte-appending). -/
def LmsPrivateKey.to_binary_representation (k : LmsPrivateKey) : List Nat :=
  u32str k.lms_type.toU32 ++ u32str k.lm_ots_type.toU32 ++ k.I ++ u32str k.q ++
    (k.key.map LmotsPrivateKey.get_flat_key).flatten

/-- `data_to_end[0]` / `data_to_end.remove(0)` loop of
`LmsPrivateKey::from_file` (`src/lms/definitions.rs` lines 186-193): pull
`n` bytes off the front, panicking (`none`) when the buffer runs dry. -/
def readBytes : Nat → List Nat → Option (List Nat × List Nat)
  | 0, data => some ([], data)
  | _ + 1, [] => none
  | n + 1, b :: rest =>
    match readBytes n rest with
    | none => none
    | some (xs, rem) => some (b :: xs, rem)

/-- The inner per-leaf loop of `LmsPrivateKey::from_file`: read `p` chains
of `n` bytes each. -/
def readChains (p n : Nat) (data : List Nat) : Option (List (List Nat) × List Nat) :=
  match p with
  | 0 => some ([], data)
  | p + 1 =>
    match readBytes n data with
    | none => none
    | some (x, rem) =>
      match readChains p n rem with
      | none => none
      | some (xs, rem2) => some (x :: xs, rem2)

/-- The outer loop of `LmsPrivateKey::from_file` (lines 181-199): rebuild
`count` leaf keys, each constructed as
`LmotsPrivateKey::new(initial_buf, u32str(q), lm_ots_parameter, current_key)`
— note that every leaf receives the tree-level `q`. -/
def readLeafKeys (count : Nat) (I : List Nat) (q : Nat) (param : LmotsParameter)
    (data : List Nat) : Option (List LmotsPrivateKey × List Nat) :=
  match count with
  | 0 => some ([], data)
  | c + 1 =>
    match readChains param.p param.n data with
    | none => none
    | some (x, rem) =>
      match readLeafKeys c I q param rem with
      | none => none
      | some (ks, rem2) => some (⟨I, u32str q, param, x⟩ :: ks, rem2)

/-- `LmsPrivateKey::from_file` (`src/lms/definitions.rs` lines 154-208)
with the file contents given as bytes (`to_file`/`from_file` only add I/O
around this byte-level parse).  The source reads the stream sequentially:
4-byte LMS typecode (`from_u32` then `get_parameter`, both of which can
panic), 4-byte LM-OTS typecode, 16-byte `I`, 4-byte `q`, then the leaf key
material; `read_from_file` on a truncated stream and the `expect` calls
panic, modelled as `none`.  Trailing bytes beyond the expected key
material are ignored, as in the source. -/
def LmsPrivateKey.from_file_bytes (data : List Nat) : Option LmsPrivateKey :=
  match readBytes 4 data with
  | none => none
  | some (t1, r1) =>
    match LmsAlgorithmType.from_u32 (str32u t1) with
    | none => none
    | some lms_type =>
      match lms_type.get_parameter with
      | none => none
      | some lms_parameter =>
        match readBytes 4 r1 with
        | none => none
        | some (t2, r2) =>
          match LmotsAlgorithmType.from_u32 (str32u t2) with
          | none => none
          | some lm_ots_type =>
            let lm_ots_parameter := lm_ots_type.get_parameter
            match readBytes 16 r2 with
            | none => none
            | some (initial, r3) =>
              match readBytes 4 r3 with
              | none => none
              | some (qb, rest) =>
                let q := str32u qb
                match readLeafKeys lms_parameter.number_of_lm_ots_keys initial q
                    lm_ots_parameter rest with
                | none => none
                | some (keys, _) =>
                  some { lms_type := lms_type, lm_ots_type := lm_ots_type, key := keys,
                         I := initial, q := q }

/-- `LmsPublicKey` (`src/lms/definitions.rs` lines 212-218). -/
structure LmsPublicKey where
  lm_ots_type : LmotsAlgorithmType
  lms_type : LmsAlgorithmType
  key : List Nat
  tree : Option (List (List Nat))
  I : List Nat
deriving DecidableEq

/-- `LmsPublicKey::to_binary_representation` (`src/lms/definitions.rs`
lines 238-247): `lms_typecode ‖ lmots_typecode ‖ I ‖ key`. -/
def LmsPublicKey.to_binary_representation (pk : LmsPublicKey) : List Nat :=
  u32str pk.lms_type.toU32 ++ u32str pk.lm_ots_type.toU32 ++ pk.I ++ pk.key

/-- `LmsPublicKey::from_binary_representation` (`src/lms/definitions.rs`
lines 249-298).  The outer `Option` models panics (`none` = panic), the
inner one is the source's `Option` return value.  The source, in order:
rejects inputs shorter than 8 bytes; decodes the two typecodes (the slices
`data[0..4]` and `data[4..8]` are in bounds by the first check); calls
`lms_type.get_parameter()`, which panics on the reserved typecode 0;
performs the length test `data.len() - data_index == 24 + m` (with
`data_index = 8`), returning `None` when it holds; copies `I` from
`data[8..24]` (panics when `data.len() < 24`); and reads the `m` root
bytes `data[24 + i]` (panics when `data.len() < 24 + m`). -/
def LmsPublicKey.from_binary_representation (data : List Nat) :
    Option (Option LmsPublicKey) :=
  if data.length < 8 then some none
  else
    match LmsAlgorithmType.from_u32 (str32u (data.take 4)) with
    | none => some none
    | some lms_type =>
      match LmotsAlgorithmType.from_u32 (str32u ((data.drop 4).take 4)) with
      | none => some none
      | some lm_ots_type =>
        match lms_type.get_parameter with
        | none => none
        | some lm_parameter =>
          if data.length - 8 = 24 + lm_parameter.m then some none
          else if data.length < 24 then none
          else if data.length < 24 + lm_parameter.m then none
          else
            some (some { lm_ots_type := lm_ots_type, lms_type := lms_type,
                         key := (data.drop 24).take lm_parameter.m,
                         tree := none, I := (data.drop 8).take 16 })

/-!
## The Merkle tree walk of `src/lms/helper.rs`

`helper.rs` operates on the generic `LmsPrivateKey<H>` (its defining module
and the `lm_ots`, `hasher` and `hss::aux` modules are not among the
provided sources), which holds `(I, seed, lmots_parameter, lms_parameter)`
and derives leaf keys on demand.
-/

/-- `D_LEAF = 0x8282` (from `src/constants.rs`, per the spec). -/
def D_LEAF : List Nat := [0x82, 0x82]

/-- `D_INTR = 0x8383` (from `src/constants.rs`, per the spec). -/
def D_INTR : List Nat := [0x83, 0x83]

/-- Modelled from the spec: the tree-walk view of the generic
`LmsPrivateKey<H>` of `helper.rs`.  `hash` stands for the hasher `H`
(update calls concatenate, `finalize` hashes the concatenation); `otsK`
stands for the composite
`lm_ots::generate_public_key(lm_ots::generate_private_key(u32str i, I, seed, param)).key`
— the LM-OTS public key `K` of leaf `i`, derived from `(seed, I)`; both
live in modules that are not among the provided sources.  `h` is
`lms_parameter.h`. -/
structure LmsPrivateKeyH where
  I : List Nat
  h : Nat
  hash : List Nat → List Nat
  otsK : Nat → List Nat

/-- `number_of_lm_ots_keys()` of the tree key's LMS parameter. -/
def LmsPrivateKeyH.maxKeys (k : LmsPrivateKeyH) : Nat := 2 ^ k.h

/-- Modelled from the spec: the aux cache (`MutableExpandedAuxData`, in the
missing `hss::aux` module) maps heap indices to 32-byte node values.  An
association list keeps it executable. -/
abbrev AuxData : Type := List (Nat × List Nat)

/-- Modelled from the spec: `hss_extract_aux_data` returns the cached node
value for a heap index when the cache covers it. -/
def hss_extract_aux_data (a : AuxData) (index : Nat) : Option (List Nat) :=
  (List.find? (fun e => e.1 == index) a).map (fun e => e.2)

/-- Modelled from the spec: `hss_save_aux_data` stores `index → value`
("After a recursive build, if an aux cache is being populated, store
r → value"). -/
def hss_save_aux_data (a : AuxData) (index : Nat) (value : List Nat) : AuxData :=
  (index, value) :: a

/-- `get_tree_element` (`src/lms/helper.rs` lines 25-64), with the
`&mut Option<MutableExpandedAuxData>` argument threaded explicitly: the
result pairs the returned node value with the aux state after the call.
The recursion `index ↦ 2*index, 2*index+1` does not terminate structurally
(at `index = 0` the source recurses forever), so the model takes a fuel
argument; `none` marks fuel exhaustion, which by `get_tree_element_rfc`
below cannot happen for heap indices `1 ≤ index < 2^(h+1)` once
`fuel ≥ 2^(h+1) - index`. -/
def get_tree_element (fuel index : Nat) (k : LmsPrivateKeyH) (aux : Option AuxData) :
    Option (List Nat × Option AuxData) :=
  match fuel with
  | 0 => none
  | fuel + 1 =>
    if k.maxKeys ≤ index then
      let result := k.hash (k.I ++ u32str index ++ D_LEAF ++ k.otsK (index - k.maxKeys))
      some (result, aux.map (fun a => hss_save_aux_data a index result))
    else
      match get_tree_element fuel (2 * index) k aux with
      | none => none
      | some (left, aux1) =>
        match get_tree_element fuel (2 * index + 1) k aux1 with
        | none => none
        | some (right, aux2) =>
          let result := k.hash (k.I ++ u32str index ++ D_INTR ++ left ++ right)
          some (result, aux2.map (fun a => hss_save_aux_data a index result))

/-- `get_tree_element_signing` (`src/lms/helper.rs` lines 12-23): consult
the cache; on a hit return the cached value, otherwise recompute via
`get_tree_element(index, private_key, &mut None)` — a fresh `None` aux, so
the input cache (held by shared reference) is untouched.  The result pairs
the value with the cache contents after the call. -/
def get_tree_element_signing (fuel index : Nat) (k : LmsPrivateKeyH)
    (aux : Option AuxData) : Option (List Nat) × Option AuxData :=
  match aux with
  | some a =>
    match hss_extract_aux_data a index with
    | some result => (some result, some a)
    | none => ((get_tree_element fuel index k none).map Prod.fst, some a)
  | none => ((get_tree_element fuel index k none).map Prod.fst, none)

/-- The RFC node-value function, written from the spec's words
(`spec.md` §4.3): leaves at heap indices `r ≥ 2^h` are
`H(I ‖ r ‖ D_LEAF ‖ K_{r - 2^h})`, internal nodes at `1 ≤ r < 2^h` are
`H(I ‖ r ‖ D_INTR ‖ T[2r] ‖ T[2r+1])`.  Index 0 is not a heap node; the
value there is irrelevant (the claims range over `r ≥ 1`). -/
def rfcNodeValue (k : LmsPrivateKeyH) (r : Nat) : List Nat :=
  if 2 ^ k.h ≤ r then
    k.hash (k.I ++ u32str r ++ D_LEAF ++ k.otsK (r - 2 ^ k.h))
  else if _h0 : r = 0 then
    []
  else
    k.hash (k.I ++ u32str r ++ D_INTR ++ rfcNodeValue k (2 * r) ++ rfcNodeValue k (2 * r + 1))
termination_by 2 ^ (k.h + 1) - r
decreasing_by
  · have hr : r < 2 ^ k.h := by omega
    have h1 : r < 2 ^ (k.h + 1) := by
      calc r < 2 ^ k.h := hr
        _ ≤ 2 ^ (k.h + 1) := Nat.pow_le_pow_right (by omega) (by omega)
    exact Nat.sub_lt_sub_left h1 (by omega)
  · have hr : r < 2 ^ k.h := by omega
    have h1 : r < 2 ^ (k.h + 1) := by
      calc r < 2 ^ k.h := hr
        _ ≤ 2 ^ (k.h + 1) := Nat.pow_le_pow_right (by omega) (by omega)
    exact Nat.sub_lt_sub_left h1 (by omega)

/-!
## Concrete instances used by the theorems
-/

/-- A leaf key whose chain seeds are all zero (parameters of `W8`, the
smallest published `p`). -/
def dummyLeaf : LmotsPrivateKey :=
  ⟨List.replicate 16 0, u32str 0, LmotsAlgorithmType.LmotsSha256N32W8.get_parameter,
   List.replicate 34 (List.replicate 32 0)⟩

/-- An `H5/W8` LMS private key holding its full complement of
`2^5 = 32` leaf keys, at position `q`. -/
def kAt (q : Nat) : LmsPrivateKey :=
  { lms_type := .LmsSha256M32H5, lm_ots_type := .LmotsSha256N32W8,
    key := List.replicate 32 dummyLeaf, I := List.replicate 16 0, q := q }

/-- Leaf `i` of the round-trip counterexample key: as produced by key
generation, its `q` field is its own leaf index `i` (`helper.rs` line 40
derives leaf `index - max` with `u32str(...)` as the LM-OTS `q`). -/
def ckLeaf (i : Nat) : LmotsPrivateKey :=
  ⟨List.replicate 16 0, u32str i, LmotsAlgorithmType.LmotsSha256N32W8.get_parameter,
   List.replicate 34 (List.replicate 32 0)⟩

/-- A fresh `H5/W8` LMS private key: 32 leaves with `q` fields `0..31`,
tree-level `q = 0`. -/
def ck : LmsPrivateKey :=
  { lms_type := .LmsSha256M32H5, lm_ots_type := .LmotsSha256N32W8,
    key := (List.range 32).map ckLeaf, I := List.replicate 16 0, q := 0 }

/-!
## Claims about the LMS private key state (C1, C9, C3)
-/

/-- Claim C1.  The claim states that `use_lmots_private_key` errors
(`KeyExhausted`) exactly when `q ≥ 2^h` and succeeds for `q < 2^h`.  The
code instead guards with `q > key.len()`: at the boundary `q = 2^h = 32`
(first conjunct) the guard does not fire and the subsequent indexing
`self.key[self.q - 1]` with `q` incremented to 33 is out of bounds — a
panic (`none`), not the claimed error.  The error is produced only for
`q > 32` (second conjunct), and `q = 31 < 2^h` still succeeds (third
conjunct). -/
theorem use_lmots_private_key_boundary :
    (kAt 32).use_lmots_private_key = none ∧
    (kAt 33).use_lmots_private_key =
      some (Except.error "All private keys already used.") ∧
    (kAt 31).use_lmots_private_key = some (Except.ok (dummyLeaf, kAt 32)) :=
  ⟨rfl, rfl, rfl⟩

/-- Claim C9: `LmsPrivateKey::new` always constructs the key with `q = 0`,
and a successful `use_lmots_private_key` call increments `q` by exactly
one while leaving `lms_type`, `lm_ots_type`, the leaf-key vector and `I`
unchanged. -/
theorem lms_private_key_mutation_frame
    (lt : LmsAlgorithmType) (lot : LmotsAlgorithmType) (ks : List LmotsPrivateKey)
    (I0 : List Nat) (k k2 : LmsPrivateKey) (leaf : LmotsPrivateKey)
    (h : k.use_lmots_private_key = some (Except.ok (leaf, k2))) :
    (LmsPrivateKey.new lt lot ks I0).q = 0 ∧
    k2.q = k.q + 1 ∧ k2.lms_type = k.lms_type ∧ k2.lm_ots_type = k.lm_ots_type ∧
    k2.key = k.key ∧ k2.I = k.I := by
  refine ⟨rfl, ?_⟩
  simp only [LmsPrivateKey.use_lmots_private_key] at h
  split at h
  · simp at h
  · cases hget : k.key.get? (k.q + 1 - 1) with
    | none => rw [hget] at h; simp at h
    | some leaf2 =>
      rw [hget] at h
      simp only [Option.some.injEq, Except.ok.injEq, Prod.mk.injEq] at h
      obtain ⟨_, hk2⟩ := h
      subst hk2
      exact ⟨rfl, rfl, rfl, rfl, rfl⟩

/-- Witness for `lms_private_key_mutation_frame` at a concrete key:
`kAt 0` has 32 leaves and `q = 0`, so using it succeeds and steps to
`kAt 1`. -/
theorem lms_private_key_mutation_frame_witness :
    (LmsPrivateKey.new .LmsSha256M32H5 .LmotsSha256N32W8 [] []).q = 0 ∧
    (kAt 1).q = (kAt 0).q + 1 ∧ (kAt 1).lms_type = (kAt 0).lms_type ∧
    (kAt 1).lm_ots_type = (kAt 0).lm_ots_type ∧
    (kAt 1).key = (kAt 0).key ∧ (kAt 1).I = (kAt 0).I :=
  lms_private_key_mutation_frame .LmsSha256M32H5 .LmotsSha256N32W8 [] []
    (kAt 0) (kAt 1) dummyLeaf rfl

set_option maxRecDepth 10000 in
/-- Claim C3.  The claim states that
`from_file (to_binary_representation k)` returns a key equal to `k`,
including every leaf key's own `q` value.  It fails on the fresh key `ck`:
`from_file` rebuilds every leaf with `u32str(q)` — the tree-level `q`
(here 0) — so leaf 1 comes back with `q = u32str 0` instead of its own
`u32str 1`, and the round trip is not the identity (the repository's own
test `private_key_serialization_deserialisation` asserts the equality
that fails here). -/
theorem lms_private_key_roundtrip_fails :
    (LmsPrivateKey.from_file_bytes ck.to_binary_representation).map
        (fun k => (k.key.get? 1).map (fun l => l.q)) = some (some (u32str 0)) ∧
    (ck.key.get? 1).map (fun l => l.q) = some (u32str 1) ∧
    LmsPrivateKey.from_file_bytes ck.to_binary_representation ≠ some ck := by
  have h1 : (LmsPrivateKey.from_file_bytes ck.to_binary_representation).map
      (fun k => (k.key.get? 1).map (fun l => l.q)) = some (some (u32str 0)) := by decide
  have h2 : (ck.key.get? 1).map (fun l => l.q) = some (u32str 1) := by decide
  refine ⟨h1, h2, fun heq => ?_⟩
  rw [heq, Option.map_some', h2] at h1
  exact absurd h1 (by decide)

/-!
## Claims about LMS public key parsing (C4, C5, C6)
-/

/-- Claim C4.  The claim states that `from_binary_representation` is total
and never panics.  It fails: the only length guard is `data.len() < 8`,
so the 8-byte input `0x00000005 ‖ 0x00000001` (both typecodes valid)
reaches `initial.clone_from_slice(&data[8..24])`, which panics out of
bounds (`none` in the model). -/
theorem lms_pubkey_parse_short_input :
    LmsPublicKey.from_binary_representation ([0, 0, 0, 5] ++ [0, 0, 0, 1]) = none := by
  decide

/-- Claim C5.  The claim states that an input passing both typecode checks
whose total length is not 56 bytes is rejected with `None`.  It fails:
the length test `data.len() - data_index == 24 + m` (with
`data_index = 8`) rejects only inputs of total length 64, so this
100-byte input is parsed successfully. -/
theorem lms_pubkey_parse_wrong_length_accepted :
    LmsPublicKey.from_binary_representation
        ([0, 0, 0, 5] ++ [0, 0, 0, 1] ++ List.replicate 92 0) =
      some (some ⟨.LmotsSha256N32W1, .LmsSha256M32H5, List.replicate 32 0, none,
                  List.replicate 16 0⟩) ∧
    ([0, 0, 0, 5] ++ [0, 0, 0, 1] ++ List.replicate 92 (0 : Nat)).length = 100 := by
  refine ⟨by decide, by decide⟩

/-- Claim C6.  The claim states that the reserved LMS typecode 0 is
rejected with `None`.  It fails: `LmsAlgorithmType::from_u32(0)` accepts
`LmsReserved`, and the subsequent `lms_type.get_parameter()` executes
`panic!("Reserved parameter.")` (`none` in the model) instead of
returning `None`. -/
theorem lms_pubkey_parse_reserved_typecode :
    LmsPublicKey.from_binary_representation
        ([0, 0, 0, 0] ++ [0, 0, 0, 1] ++ List.replicate 48 0) = none := by
  decide

/-!
## Claim C2: public key serialization round-trip
-/

theorem lms_toU32_lt (t : LmsAlgorithmType) : t.toU32 < 2 ^ 32 := by
  cases t <;> decide

theorem lms_from_u32_toU32 (t : LmsAlgorithmType) :
    LmsAlgorithmType.from_u32 t.toU32 = some t := by
  cases t <;> rfl

theorem lmots_toU32_lt (t : LmotsAlgorithmType) : t.toU32 < 2 ^ 32 := by
  cases t <;> decide

theorem lmots_from_u32_toU32 (t : LmotsAlgorithmType) :
    LmotsAlgorithmType.from_u32 t.toU32 = some t := by
  cases t <;> rfl

/-- Claim C2: for a well-formed LMS public key (16-byte `I`, 32-byte root,
non-reserved typecodes), parsing the serialization round-trips: the result
is `Some` of a key with the same `lms_type`, `lm_ots_type`, `I` and root
bytes (the source's inverted length check rejects only total length 64,
which the correct serialized length 56 does not trigger). -/
theorem lms_public_key_roundtrip (pk : LmsPublicKey)
    (h1 : pk.lms_type ≠ LmsAlgorithmType.LmsReserved)
    (h2 : pk.I.length = 16) (h3 : pk.key.length = 32) :
    LmsPublicKey.from_binary_representation pk.to_binary_representation =
      some (some { lm_ots_type := pk.lm_ots_type, lms_type := pk.lms_type,
                   key := pk.key, tree := none, I := pk.I }) := by
  obtain ⟨lot, lt, key, tree, I⟩ := pk
  simp only at h1 h2 h3 ⊢
  have hA : (u32str lt.toU32).length = 4 := u32str_length _
  have hB : (u32str lot.toU32).length = 4 := u32str_length _
  have hdata : LmsPublicKey.to_binary_representation ⟨lot, lt, key, tree, I⟩ =
      u32str lt.toU32 ++ (u32str lot.toU32 ++ (I ++ key)) := by
    simp [LmsPublicKey.to_binary_representation]
  have hlen : (u32str lt.toU32 ++ (u32str lot.toU32 ++ (I ++ key))).length = 56 := by
    simp [hA, hB, h2, h3]
  have h8 : (u32str lt.toU32 ++ (u32str lot.toU32 ++ (I ++ key))).drop 8 = I ++ key := by
    rw [← List.append_assoc]
    exact List.drop_left' (by simp [hA, hB])
  have h24 : (u32str lt.toU32 ++ (u32str lot.toU32 ++ (I ++ key))).drop 24 = key := by
    rw [← List.append_assoc, ← List.append_assoc]
    exact List.drop_left' (by simp [hA, hB, h2])
  rw [hdata]
  unfold LmsPublicKey.from_binary_representation
  rw [hlen, List.take_left' hA,
      str32u_u32str _ (lms_toU32_lt lt), lms_from_u32_toU32,
      List.drop_left' hA, List.take_left' hB,
      str32u_u32str _ (lmots_toU32_lt lot), lmots_from_u32_toU32,
      h8, List.take_left' h2, h24]
  have hm : ∃ hh, lt.get_parameter = some ⟨hh, 32, lt⟩ := by
    cases lt
    · exact absurd rfl h1
    all_goals exact ⟨_, rfl⟩
  obtain ⟨hh, hp⟩ := hm
  dsimp only
  rw [hp]
  norm_num
  exact le_of_eq h3

/-- A concrete well-formed `H5/W1` public key. -/
def pkc : LmsPublicKey :=
  ⟨.LmotsSha256N32W1, .LmsSha256M32H5, List.replicate 32 7, none, List.replicate 16 3⟩

/-- Witness for `lms_public_key_roundtrip` at the concrete key `pkc`. -/
theorem lms_public_key_roundtrip_witness :
    LmsPublicKey.from_binary_representation pkc.to_binary_representation =
      some (some { lm_ots_type := pkc.lm_ots_type, lms_type := pkc.lms_type,
                   key := pkc.key, tree := none, I := pkc.I }) :=
  lms_public_key_roundtrip pkc (by decide) (by decide) (by decide)

/-!
## Claims about the Merkle tree walk (C7, C8, C10)
-/

/-- A small concrete tree key (`h = 1`, so heap indices 1..3) with
explicit hash and leaf-key functions. -/
def kc : LmsPrivateKeyH :=
  { I := [1, 2], h := 1, hash := fun l => [l.length % 256], otsK := fun i => [i % 256] }

/-- Claim C7: for every heap index `1 ≤ r < 2^(h+1)` (and any aux cache
and sufficient fuel), `get_tree_element` returns exactly the RFC node
value: `H(I ‖ r ‖ D_LEAF ‖ K_{r-2^h})` at leaves `r ≥ 2^h` and
`H(I ‖ r ‖ D_INTR ‖ T[2r] ‖ T[2r+1])` at internal nodes. -/
theorem get_tree_element_rfc (fuel r : Nat) (k : LmsPrivateKeyH) (aux : Option AuxData)
    (hr1 : 1 ≤ r) (hr2 : r < 2 ^ (k.h + 1)) (hfuel : 2 ^ (k.h + 1) - r ≤ fuel) :
    (get_tree_element fuel r k aux).map Prod.fst = some (rfcNodeValue k r) := by
  induction fuel generalizing r aux with
  | zero => omega
  | succ fuel ih =>
    have hpow : 2 ^ (k.h + 1) = 2 * 2 ^ k.h := by rw [Nat.pow_succ]; ring
    rw [get_tree_element]
    by_cases hleaf : k.maxKeys ≤ r
    · rw [if_pos hleaf]
      rw [rfcNodeValue.eq_def, if_pos (by simpa [LmsPrivateKeyH.maxKeys] using hleaf)]
      simp [LmsPrivateKeyH.maxKeys]
    · rw [if_neg hleaf]
      simp only [LmsPrivateKeyH.maxKeys, not_le] at hleaf
      have ihl := ih (2 * r) aux (by omega) (by omega) (by omega)
      obtain ⟨⟨left, aux1⟩, hl, hlv⟩ := Option.map_eq_some'.mp ihl
      have ihr := ih (2 * r + 1) aux1 (by omega) (by omega) (by omega)
      obtain ⟨⟨right, aux2⟩, hr, hrv⟩ := Option.map_eq_some'.mp ihr
      simp only at hlv hrv
      rw [hl]
      dsimp only
      rw [hr]
      dsimp only
      rw [rfcNodeValue.eq_def, if_neg (by omega), dif_neg (by omega)]
      simp [hlv, hrv]

/-- Witness for `get_tree_element_rfc` at the root of the concrete tree
`kc` (with enough fuel for its `2^(h+1) - 1 = 3` nodes). -/
theorem get_tree_element_rfc_witness :
    (get_tree_element 3 1 kc none).map Prod.fst = some (rfcNodeValue kc 1) :=
  get_tree_element_rfc 3 1 kc none (by decide) (by decide) (by decide)

/-- Claim C8: when every entry of the aux cache equals the value that the
from-scratch tree walk computes at its index, `get_tree_element_signing`
(which returns the cached value on a hit and otherwise recomputes with no
aux attached) returns the same node value as `get_tree_element` run with
no aux cache. -/
theorem get_tree_element_signing_equiv (fuel index : Nat) (k : LmsPrivateKeyH)
    (a : AuxData)
    (hcache : ∀ i v, hss_extract_aux_data a i = some v →
      (get_tree_element fuel i k none).map Prod.fst = some v) :
    (get_tree_element_signing fuel index k (some a)).1 =
      (get_tree_element fuel index k none).map Prod.fst := by
  simp only [get_tree_element_signing]
  cases hx : hss_extract_aux_data a index with
  | none => rfl
  | some v => exact (hcache index v hx).symm

/-- Witness for `get_tree_element_signing_equiv`: the empty aux cache
trivially satisfies the correctness hypothesis. -/
theorem get_tree_element_signing_equiv_witness :
    (get_tree_element_signing 3 2 kc (some [])).1 =
      (get_tree_element 3 2 kc none).map Prod.fst :=
  get_tree_element_signing_equiv 3 2 kc []
    (by intro i v h; simp [hss_extract_aux_data] at h)

/-- Claim C10: `get_tree_element_signing` never stores into the aux cache:
the cache after the call is exactly the cache before (first conjunct), and
on a miss the recomputation runs with no aux data attached, so it saves
nothing anywhere (second conjunct: a `get_tree_element` call with `None`
aux finishes with `None` aux). -/
theorem get_tree_element_signing_preserves_aux :
    (∀ fuel index k aux, (get_tree_element_signing fuel index k aux).2 = aux) ∧
    (∀ fuel index k res, get_tree_element fuel index k none = some res →
      res.2 = none) := by
  constructor
  · intro fuel index k aux
    cases aux with
    | none => rfl
    | some a =>
      simp only [get_tree_element_signing]
      cases hss_extract_aux_data a index <;> rfl
  · intro fuel
    induction fuel with
    | zero => intro index k res h; exact absurd h (by simp [get_tree_element])
    | succ fuel ih =>
      intro index k res h
      rw [get_tree_element] at h
      by_cases hleaf : k.maxKeys ≤ index
      · rw [if_pos hleaf] at h
        simp only [Option.map_none', Option.some.injEq] at h
        rw [← h]
      · rw [if_neg hleaf] at h
        cases h1 : get_tree_element fuel (2 * index) k none with
        | none => rw [h1] at h; exact absurd h (by simp)
        | some p1 =>
          obtain ⟨left, aux1⟩ := p1
          have haux1 : aux1 = none := ih (2 * index) k (left, aux1) h1
          subst haux1
          rw [h1] at h
          dsimp only at h
          cases h2 : get_tree_element fuel (2 * index + 1) k none with
          | none => rw [h2] at h; exact absurd h (by simp)
          | some p2 =>
            obtain ⟨right, aux2⟩ := p2
            have haux2 : aux2 = none := ih (2 * index + 1) k (right, aux2) h2
            subst haux2
            rw [h2] at h
            dsimp only at h
            simp only [Option.map_none', Option.some.injEq] at h
            rw [← h]

/-- Witness for `get_tree_element_signing_preserves_aux`: both conjuncts
applied at concrete inputs — a nonempty cache survives a signing walk
unchanged, and a concrete leaf recomputation ends with `None` aux. -/
theorem get_tree_element_signing_preserves_aux_witness :
    (get_tree_element_signing 3 1 kc (some [(9, [7])])).2 = some [(9, [7])] ∧
    get_tree_element 1 2 kc none = some ([9], none) ∧
    (([9], (none : Option AuxData)) : List Nat × Option AuxData).2 = none :=
  ⟨get_tree_element_signing_preserves_aux.1 3 1 kc (some [(9, [7])]), rfl,
   get_tree_element_signing_preserves_aux.2 1 2 kc ([9], none) rfl⟩
